import Mathlib

/-!
Verification of the codemode execution subsystem of the mcp-demo-night
repository against its natural-language specification.

The embedding below is a shallow model of the TypeScript sources:

* `src/demo-agent/src/codemode-agent.ts` — the codemode agent: the
  `summarizeResult` helper, the `codemode` tool's `execute` callback, the
  `executeCode` method and the dynamic worker module it generates
  (`parseSSEResponse`, `callTool`, the `codemode` Proxy object and the
  worker `fetch` handler).
* `src/fluma/src/tools/type-generator.ts` — the surface generator
  (`getZodTypeString`, `generateTypeScript`, `generateToolDescriptions`;
  the compact single-line variant cited by the claims).
* the MCP chat agent (`getMcpSessionId`, `getSharedSessionId`,
  `clearState`).

Platform primitives that the code calls but does not define — the
JavaScript parser that compiles the worker module, `JSON.parse`, the
network `fetch`, and the Worker Loader provisioning step — are modelled
as explicit function parameters (oracles), so every theorem quantifies
over their behaviour.  JSON values are modelled by the inductive `Value`
below; `undefined` is collapsed to `vNull` (the claims never distinguish
them) and JSON numbers are modelled as integers (no claim involves
non-integral numerics).
-/

namespace McpDemo

/-- A JSON-like runtime value, the data that flows between the sandboxed
program, the Capability Bridge and the agent. -/
inductive Value where
  | vNull
  | vBool (b : Bool)
  | vNum (n : Int)
  | vStr (s : String)
  | vArr (elems : List Value)
  | vObj (fields : List (String × Value))

/-- JavaScript truthiness for the modelled values: `null`/`undefined`,
`false`, `0` and the empty string are falsy; arrays and objects are
always truthy. -/
def truthy : Value → Bool
  | .vNull => false
  | .vBool b => b
  | .vNum n => decide (n ≠ 0)
  | .vStr s => decide (s ≠ "")
  | .vArr _ => true
  | .vObj _ => true

/-- Truthiness of an optional-chaining result (`undefined` is falsy). -/
def truthyOpt (o : Option Value) : Bool :=
  match o with
  | none => false
  | some v => truthy v

/-- Property lookup `v.k` on an object value (first binding wins, as for
a JavaScript object literal); `none` models `undefined`. -/
def lookupField : Value → String → Option Value
  | .vObj fields, k => (fields.find? (fun kv => kv.1 = k)).map (fun kv => kv.2)
  | _, _ => none

/-- Index access `v[i]` on an array value; `none` models `undefined`. -/
def indexValue : Value → Nat → Option Value
  | .vArr elems, i => elems.get? i
  | _, _ => none

/-! ## Capability Bridge: the `callTool` path inside the generated worker
(codemode-agent.ts lines 282-329). -/

/-- The request `callTool` sends: a POST of
`{jsonrpc, id, method: "tools/call", params: {name, arguments}}` to the
MCP url with the `mcp-session-id` header.  Only the fields the claims
speak about are recorded. -/
structure FetchRequest where
  url : String
  sessionId : String
  toolName : String
  arguments : Value

/-- What one `fetch` round trip can produce for `callTool`: a rejected
promise (network failure, modelled with the platform's error message) or
the response body text. -/
inductive FetchOutcome where
  | fetchError (msg : String)
  | body (text : String)

/-- Splitting a character list at every occurrence of a separator
character, keeping empty segments — the behaviour of JavaScript
`text.split(sep)` for a one-character separator. -/
def splitOnChar (c : Char) : List Char → List (List Char)
  | [] => [[]]
  | a :: rest =>
      match splitOnChar c rest with
      | [] => if a = c then [[], []] else [[a]]
      | h :: t => if a = c then [] :: h :: t else (a :: h) :: t

/-- Whether a line starts with the six characters `data: ` — the
`line.startsWith('data: ')` test. -/
def startsWithData : List Char → Bool
  | 'd' :: 'a' :: 't' :: 'a' :: ':' :: ' ' :: _ => true
  | _ => false

/-- Model of `parseSSEResponse` (codemode-agent.ts lines 283-291): split
the body on newlines, take the first line starting with `data: `, strip
the 6-character prefix (`line.slice(6)`) and `JSON.parse` the rest;
throw `No data in SSE response` when no such line exists.  `pj` is the
platform's `JSON.parse` (its `Except.error` is the thrown SyntaxError's
message).  Strings are processed through their character lists so that
the definition evaluates by reduction. -/
def parseSSEResponse (pj : String → Except String Value) (text : String) :
    Except String Value :=
  match (splitOnChar (Char.ofNat 10) text.data).find? startsWithData with
  | some line => pj (String.mk (line.drop 6))
  | none => Except.error "No data in SSE response"

/-- Model of `result.error.message` as `new Error(result.error.message)` records
it: a string message is kept verbatim; a missing or non-string `message`
property degrades to the empty message (as `new Error(undefined)` does).
-/
def errMessage (errVal : Option Value) : String :=
  match errVal with
  | some e =>
      match lookupField e "message" with
      | some (.vStr m) => m
      | _ => ""
  | none => ""

/-- Model of `result.result?.content?.[0]?.text` (codemode-agent.ts line 320),
restricted to string text content (per the MCP protocol the content text
is textual; a non-string `text` field is not modelled). -/
def textContentOf (envelope : Value) : Option String :=
  match lookupField envelope "result" with
  | none => none
  | some r =>
      match lookupField r "content" with
      | none => none
      | some c =>
          match indexValue c 0 with
          | none => none
          | some c0 =>
              match lookupField c0 "text" with
              | some (.vStr t) => some t
              | _ => none

/-- The tail of `callTool` after the SSE envelope is parsed
(codemode-agent.ts lines 316-328): a truthy `result.error` throws the
backend's message; otherwise a truthy `textContent` is `JSON.parse`d
with a fallback to the raw text, and a falsy/absent `textContent` yields
`result.result` unchanged. -/
def handleRpc (pj : String → Except String Value) (envelope : Value) :
    Except String Value :=
  if truthyOpt (lookupField envelope "error") then
    Except.error (errMessage (lookupField envelope "error"))
  else
    match textContentOf envelope with
    | some t =>
        if t = "" then
          Except.ok ((lookupField envelope "result").getD Value.vNull)
        else
          match pj t with
          | Except.ok v => Except.ok v
          | Except.error _ => Except.ok (Value.vStr t)
    | none => Except.ok ((lookupField envelope "result").getD Value.vNull)

/-- Model of `arguments: args || {}` (codemode-agent.ts line 308): any falsy
`args` — `undefined` (`none`), `null`, `false`, `0`, `""` — is replaced
by the empty object. -/
def argsOrEmpty (args : Option Value) : Value :=
  match args with
  | none => Value.vObj []
  | some v => if truthy v then v else Value.vObj []

/-- The single HTTP request one `callTool` invocation performs
(codemode-agent.ts lines 295-311): the fixed MCP url and session id of
the worker, the invoked tool name, and `args || {}` as arguments. -/
def buildToolRequest (url sessionId toolName : String) (args : Option Value) :
    FetchRequest :=
  { url := url, sessionId := sessionId, toolName := toolName,
    arguments := argsOrEmpty args }

/-- Processing of the `fetch` outcome by `callTool`: a rejected fetch
propagates as a thrown error, otherwise the body is SSE-parsed and the
JSON-RPC envelope handled. -/
def handleFetch (pj : String → Except String Value) :
    FetchOutcome → Except String Value
  | .fetchError m => Except.error m
  | .body text =>
      match parseSSEResponse pj text with
      | Except.error m => Except.error m
      | Except.ok envelope => handleRpc pj envelope

/-- Model of `callTool(toolName, args)` (codemode-agent.ts lines 294-329): build
the one request, perform it through the network oracle `net`, and
process the reply.  `Except.error` is a thrown error, catchable by the
sandboxed program. -/
def callTool (pj : String → Except String Value)
    (net : FetchRequest → FetchOutcome) (url sessionId toolName : String)
    (args : Option Value) : Except String Value :=
  handleFetch pj (net (buildToolRequest url sessionId toolName args))

/-- The `codemode` Proxy object (codemode-agent.ts lines 332-339): every
property access yields the callable `(args) => callTool(prop, args)`;
being a total function, property access never fails. -/
def codemodeProxy (pj : String → Except String Value)
    (net : FetchRequest → FetchOutcome) (url sessionId : String) :
    String → Option Value → Except String Value :=
  fun prop args => callTool pj net url sessionId prop args

/-! ## The sandboxed program and the worker fetch handler
(codemode-agent.ts lines 275-360). -/

/-- The behaviour of the AI-generated async function once compiled: it
can return a value, throw an error, await a promise that never settles,
or await one capability call through the `codemode` proxy — either bare
(`call`, an uncaught rejection propagates) or wrapped in `try/catch`
(`callTry`, the handler receives the thrown message).  Continuations are
arbitrary functions, so any finite call/control structure is
representable. -/
inductive Prog where
  | ret (v : Value)
  | throwE (msg : String)
  | hang
  | call (name : String) (args : Option Value) (k : Value → Prog)
  | callTry (name : String) (args : Option Value) (k : Value → Prog)
      (h : String → Prog)

/-- How one run of the user program settles: a resolved value, a thrown
error (its message), or never (the promise never settles). -/
inductive RunOutcome where
  | ok (v : Value)
  | thrown (msg : String)
  | never

/-- Running `await userCode()` inside the worker (codemode-agent.ts
lines 342-343): capability calls go through `callTool`; an error thrown
by a bare call propagates, a `try/catch` in the program routes it to the
handler. -/
def runProg (pj : String → Except String Value)
    (net : FetchRequest → FetchOutcome) (url sessionId : String) :
    Prog → RunOutcome
  | .ret v => RunOutcome.ok v
  | .throwE m => RunOutcome.thrown m
  | .hang => RunOutcome.never
  | .call name args k =>
      match callTool pj net url sessionId name args with
      | Except.ok v => runProg pj net url sessionId (k v)
      | Except.error m => RunOutcome.thrown m
  | .callTry name args k h =>
      match callTool pj net url sessionId name args with
      | Except.ok v => runProg pj net url sessionId (k v)
      | Except.error m => runProg pj net url sessionId (h m)

/-- The JSON body of the worker's `Response` (codemode-agent.ts lines
345-357): `{success:true, result}` from the `try` branch, or
`{success:false, error: err.message, stack}` from the `catch` branch
(the `stack` field is not read by `executeCode` and is not modelled).
`never` records that the worker's `fetch` promise itself never settles
because the program never resolved. -/
inductive WorkerResp where
  | success (result : Value)
  | failure (error : String)
  | never

/-- The worker module's `fetch` handler (codemode-agent.ts lines
277-358): run the user program inside `try/catch`; every thrown error —
a capability-call rejection or a plain `throw` — becomes the tagged
`{success:false, error}` response. -/
def workerFetch (pj : String → Except String Value)
    (net : FetchRequest → FetchOutcome) (url sessionId : String)
    (p : Prog) : WorkerResp :=
  match runProg pj net url sessionId p with
  | RunOutcome.ok v => WorkerResp.success v
  | RunOutcome.thrown m => WorkerResp.failure m
  | RunOutcome.never => WorkerResp.never

/-! ## `executeCode` (codemode-agent.ts lines 267-391). -/

/-- How one `executeCode` call settles from its caller's point of view:
a returned value, a thrown exception (it has no `try/catch` of its own),
or never (awaiting a worker whose promise never settles). -/
inductive ExecStep where
  | ok (v : Value)
  | thrownE (msg : String)
  | never

/-- Model of `executeCode(code)` (codemode-agent.ts lines 267-391).  Oracles:
`compile` is the platform's parse/instantiation of the generated worker
module with `code` spliced into `const userCode = ${code};` — its
`Except.error` (e.g. the SyntaxError for an empty source string) is the
rejection `executeCode` awaits into; `provision` models the Worker
Loader `CODE_EXECUTOR.get`/`getEntrypoint` step.  On a worker response
with `success:false`, `executeCode` throws
`new Error(result.error || 'Code execution failed')` — the `||` fallback
replaces an empty error message.  On success it returns `result.result`
unchanged. -/
def executeCode (compile : String → Except String Prog)
    (provision : Except String Unit) (pj : String → Except String Value)
    (net : FetchRequest → FetchOutcome) (url sessionId code : String) :
    ExecStep :=
  match provision with
  | Except.error m => ExecStep.thrownE m
  | Except.ok _ =>
      match compile code with
      | Except.error m => ExecStep.thrownE m
      | Except.ok p =>
          match workerFetch pj net url sessionId p with
          | WorkerResp.success v => ExecStep.ok v
          | WorkerResp.failure e =>
              ExecStep.thrownE (if e = "" then "Code execution failed" else e)
          | WorkerResp.never => ExecStep.never

/-! ## `summarizeResult` and the codemode tool's `execute` callback
(codemode-agent.ts lines 76-141). -/

/-- Model of `summarizeResult` (codemode-agent.ts lines 76-115): an empty
top-level array becomes `{count: 0, items: []}`; a top-level array of
more than 5 elements becomes `{count, sample: first, message}`; a
non-array object has each property whose value is an array of more than
5 elements replaced by the analogous summary; everything else is
returned as-is. -/
def summarizeResult : Value → Value
  | .vArr elems =>
      if elems.length = 0 then
        Value.vObj [("count", Value.vNum 0), ("items", Value.vArr [])]
      else if 5 < elems.length then
        Value.vObj
          [("count", Value.vNum elems.length),
           ("sample", (elems.head?).getD Value.vNull),
           ("message",
            Value.vStr (toString elems.length ++
              " items returned (showing first as sample)"))]
      else Value.vArr elems
  | .vObj fields =>
      Value.vObj (fields.map (fun kv =>
        match kv.2 with
        | .vArr elems =>
            if 5 < elems.length then
              (kv.1, Value.vObj
                [("count", Value.vNum elems.length),
                 ("sample", (elems.head?).getD Value.vNull),
                 ("message",
                  Value.vStr (toString elems.length ++
                    " items (showing first as sample)"))])
            else kv
        | _ => kv))
  | v => v

/-- The tagged value the codemode tool's `execute` callback serializes
back to the agent (codemode-agent.ts lines 123-140).  `crashed`
represents an exception escaping the tool call uncaught; the
`try/catch` spanning the whole callback maps every thrown error to
`failure`, so no code path may produce `crashed`. -/
inductive Outcome where
  | success (result : Value)
  | failure (error : String)
  | crashed (msg : String)
  | never

/-- The codemode tool's `execute` callback (codemode-agent.ts lines
123-140): await `executeCode`, wrap the value as
`{success:true, result: summarizeResult(result)}`; any thrown error is
caught and wrapped as `{success:false, error: error.message}`.  If the
awaited promise never settles, the callback never returns. -/
def codemodeToolExecute (compile : String → Except String Prog)
    (provision : Except String Unit) (pj : String → Except String Value)
    (net : FetchRequest → FetchOutcome) (url sessionId code : String) :
    Outcome :=
  match executeCode compile provision pj net url sessionId code with
  | ExecStep.ok v => Outcome.success (summarizeResult v)
  | ExecStep.thrownE m => Outcome.failure m
  | ExecStep.never => Outcome.never

/-! ## Surface generation (fluma/src/tools/type-generator.ts, compact
variant, lines 16-66). -/

/-- The Zod schema kinds `getZodTypeString` inspects.  The first seven
constructors are the representable kinds it special-cases; `zOther`
stands for any other Zod schema (date, union, record, ...), carrying the
kind's name only to show genericity. -/
inductive ZodType where
  | zString
  | zNumber
  | zBoolean
  | zEnum (options : List String)
  | zOptional (inner : ZodType)
  | zArray (element : ZodType)
  | zObject
  | zOther (kind : String)

/-- Model of `getZodTypeString` (type-generator.ts lines 16-28): the TypeScript
type string for one schema; any schema that is none of the handled
kinds falls through to `"any"`. -/
def getZodTypeString : ZodType → String
  | .zString => "string"
  | .zNumber => "number"
  | .zBoolean => "boolean"
  | .zEnum options =>
      String.intercalate " | "
        (options.map (fun o => "\x27" ++ o ++ "\x27"))
  | .zOptional inner => getZodTypeString inner
  | .zArray element => getZodTypeString element ++ "[]"
  | .zObject => "object"
  | .zOther _ => "any"

/-- Model of `zodSchema.isOptional?.() || zodSchema instanceof z.ZodOptional`
(type-generator.ts line 45) on the modelled kinds. -/
def isOptionalZ : ZodType → Bool
  | .zOptional _ => true
  | _ => false

/-- One tool definition: its description and the shape (ordered named
fields) of its input object schema, as `toolDefinitions` declares them.
-/
structure ToolDef where
  description : String
  shape : List (String × ZodType)

/-- The capability catalog: `Object.entries(toolDefinitions)` in
declaration order. -/
def Catalog : Type := List (String × ToolDef)

/-- One parameter rendering `key?: type` (type-generator.ts lines
42-48). -/
def renderParam (kv : String × ZodType) : String :=
  kv.1 ++ (if isOptionalZ kv.2 then "?" else "") ++ ": " ++
    getZodTypeString kv.2

/-- One tool line `name({params}): Promise<any> // description`
(type-generator.ts line 52). -/
def renderTool (t : String × ToolDef) : String :=
  t.1 ++ "(\x7b" ++
    String.intercalate ", " (t.2.shape.map renderParam) ++
    "\x7d): Promise<any> // " ++ t.2.description

/-- Model of `generateTypeScript` (type-generator.ts lines 34-56): the compact
`declare const codemode` block over every tool of the catalog. -/
def generateTypeScript (cat : Catalog) : String :=
  "declare const codemode: \x7b\n  " ++
    String.intercalate ";\n  " (cat.map renderTool) ++
    ";\n\x7d;"

/-- Model of `generateToolDescriptions` (type-generator.ts lines 62-66): one
`- name: description` line per tool, in catalog order. -/
def generateToolDescriptions (cat : Catalog) : String :=
  String.intercalate "\n"
    (cat.map (fun nd => "- " ++ nd.1 ++ ": " ++ nd.2.description))

/-! ## MCP session establishment (the MCP chat agent:
`getMcpSessionId`, `getSharedSessionId`, `clearState`). -/

/-- The session-relevant state of one MCP chat agent: the in-memory
field `this.mcpSessionId` and the `'mcp-session-id'` entry of its
durable storage. -/
structure AgentState where
  mem : Option String
  storage : Option String

/-- Model of `getMcpSessionId` instrumented: on success it returns the session
id, the agent state after the call, and whether the backend `initialize`
request was sent (`true` only on the cache-miss path).  `init` is the
backend's `mcp-session-id` response header (`none` means the header was
absent, which throws `'Failed to get MCP session ID'`). -/
def getMcpSessionId (init : Option String) (s : AgentState) :
    Except String (String × AgentState × Bool) :=
  match s.mem with
  | some sid => Except.ok (sid, s, false)
  | none =>
      match s.storage with
      | some sid =>
          Except.ok (sid, { mem := some sid, storage := some sid }, false)
      | none =>
          match init with
          | none => Except.error "Failed to get MCP session ID"
          | some sid =>
              Except.ok (sid, { mem := some sid, storage := some sid }, true)

/-- Model of `getSharedSessionId` — the RPC method the codemode agent calls
before each execution — simply delegates to `getMcpSessionId`. -/
def getSharedSessionId (init : Option String) (s : AgentState) :
    Except String (String × AgentState × Bool) :=
  getMcpSessionId init s

/-- Model of `clearState` of the MCP agent: `storage.deleteAll()` plus
`this.mcpSessionId = null` — the session id is gone from both caches. -/
def clearState (_s : AgentState) : AgentState :=
  { mem := none, storage := none }

/-! ## Claim-side definitions. -/

/-- Modelled from the claim wording of C9 (the spec's "summarized before
insertion into a conversation"): a top-level array with more than 5
elements is replaced by `{count, sample: first, message}`; an empty
top-level array becomes `{count: 0, items: []}`; in a returned
non-array object every property holding an array of more than 5
elements is replaced by the same summary shape; all other values pass
through unchanged.  To be compared with `summarizeResult`. -/
def summarizeSpec : Value → Value
  | .vArr elems =>
      if 5 < elems.length then
        Value.vObj
          [("count", Value.vNum elems.length),
           ("sample", (elems.head?).getD Value.vNull),
           ("message",
            Value.vStr (toString elems.length ++
              " items returned (showing first as sample)"))]
      else if elems.length = 0 then
        Value.vObj [("count", Value.vNum 0), ("items", Value.vArr [])]
      else Value.vArr elems
  | .vObj fields =>
      Value.vObj (fields.map (fun kv =>
        match kv.2 with
        | .vArr elems =>
            if 5 < elems.length then
              (kv.1, Value.vObj
                [("count", Value.vNum elems.length),
                 ("sample", (elems.head?).getD Value.vNull),
                 ("message",
                  Value.vStr (toString elems.length ++
                    " items (showing first as sample)"))])
            else kv
        | _ => kv))
  | v => v

/-- The values `summarizeResult` leaves untouched: non-empty arrays of
at most 5 elements, objects none of whose properties holds an array of
more than 5 elements, and every non-array non-object value. -/
def passesThrough : Value → Bool
  | .vArr elems => decide (elems.length ≠ 0) && decide (elems.length ≤ 5)
  | .vObj fields =>
      fields.all (fun kv =>
        match kv.2 with
        | .vArr elems => decide (elems.length ≤ 5)
        | _ => true)
  | _ => true

/-! ## Concrete oracles and fixtures used by witnesses and
counterexamples. -/

/-- A JSON.parse oracle that fails on every input. -/
def pjNone : String → Except String Value :=
  fun s => Except.error ("Unexpected token: " ++ s)

/-- A network oracle on which every fetch rejects. -/
def netDown : FetchRequest → FetchOutcome :=
  fun _ => FetchOutcome.fetchError "network down"

/-- A compile oracle on which exactly the empty source string fails to
compile (the worker module `const userCode = ;` is a syntax error). -/
def compileEmptyFails : String → Except String Prog :=
  fun s =>
    if s = "" then Except.error "SyntaxError: Unexpected token"
    else Except.ok (Prog.ret Value.vNull)

/-- A six-element array literal. -/
def lit6 : Value :=
  Value.vArr [Value.vNum 1, Value.vNum 2, Value.vNum 3, Value.vNum 4,
    Value.vNum 5, Value.vNum 6]

/-- A compile oracle whose program returns `lit6`. -/
def compileRet6 : String → Except String Prog :=
  fun _ => Except.ok (Prog.ret lit6)

/-- A compile oracle whose program returns the string literal "hi". -/
def compileRetHi : String → Except String Prog :=
  fun _ => Except.ok (Prog.ret (Value.vStr "hi"))

/-- A compile oracle whose program awaits a promise that never settles.
-/
def compileHang : String → Except String Prog :=
  fun _ => Except.ok Prog.hang

/-- A program performing one bare `get_event` capability call and
returning its value. -/
def progGetEvent : Prog :=
  Prog.call "get_event" (some (Value.vObj [("event_id", Value.vStr "missing")]))
    Prog.ret

/-- A compile oracle yielding `progGetEvent`. -/
def compileGetEvent : String → Except String Prog :=
  fun _ => Except.ok progGetEvent

/-- A network oracle whose every reply is the SSE body `data: ERR`. -/
def netEvErr : FetchRequest → FetchOutcome :=
  fun _ => FetchOutcome.body "data: ERR"

/-- A JSON.parse oracle for which `ERR` parses to a JSON-RPC error
envelope with message "Event not found". -/
def pjEvErr : String → Except String Value :=
  fun s =>
    if s = "ERR" then
      Except.ok (Value.vObj
        [("error", Value.vObj [("message", Value.vStr "Event not found")])])
    else Except.error "bad json"

/-- A JSON.parse oracle for which `ERR` parses to a JSON-RPC error
envelope whose message is the empty string. -/
def pjEmptyErr : String → Except String Value :=
  fun s =>
    if s = "ERR" then
      Except.ok (Value.vObj
        [("error", Value.vObj [("message", Value.vStr "")])])
    else Except.error "bad json"

/-! ## Claim C1. -/

/-- Claim C1: for every source string on the codemode execute path no
exception propagates uncaught to the caller — the outcome is never
`crashed`; in particular a failed compile of the supplied source, a
failed provisioning of the isolated worker, and a throwing program body
each settle as a tagged `{success:false, error}` result. -/
theorem c1_execute_never_uncaught
    (compile : String → Except String Prog) (provision : Except String Unit)
    (pj : String → Except String Value) (net : FetchRequest → FetchOutcome)
    (url sessionId code : String) :
    (∀ m, codemodeToolExecute compile provision pj net url sessionId code ≠
      Outcome.crashed m) ∧
    (∀ m, provision = Except.error m →
      codemodeToolExecute compile provision pj net url sessionId code =
        Outcome.failure m) ∧
    (∀ m, provision = Except.ok () → compile code = Except.error m →
      codemodeToolExecute compile provision pj net url sessionId code =
        Outcome.failure m) ∧
    (∀ p m, provision = Except.ok () → compile code = Except.ok p →
      runProg pj net url sessionId p = RunOutcome.thrown m →
      ∃ fm, codemodeToolExecute compile provision pj net url sessionId code =
        Outcome.failure fm) := by
  refine ⟨?_, ?_, ?_, ?_⟩
  · intro m h
    rw [codemodeToolExecute] at h
    cases hstep : executeCode compile provision pj net url sessionId code <;>
      simp [hstep] at h
  · intro m hprov
    simp [codemodeToolExecute, executeCode, hprov]
  · intro m hprov hcomp
    simp [codemodeToolExecute, executeCode, hprov, hcomp]
  · intro p m hprov hcomp hrun
    refine ⟨if m = "" then "Code execution failed" else m, ?_⟩
    simp [codemodeToolExecute, executeCode, workerFetch, hprov, hcomp, hrun]

/-- Witness for C1: on the concrete compile oracle the empty source
string settles as a tagged failure carrying the syntax-error message. -/
theorem c1_witness :
    codemodeToolExecute compileEmptyFails (Except.ok ()) pjNone netDown
      "http://mcp" "sess" "" = Outcome.failure "SyntaxError: Unexpected token" :=
  (c1_execute_never_uncaught compileEmptyFails (Except.ok ()) pjNone netDown
    "http://mcp" "sess" "").2.2.1 "SyntaxError: Unexpected token" rfl rfl

/-- Helper: mapping a function that fixes every member of a list is the
identity on that list. -/
theorem list_map_fixed {α : Type} (l : List α) (f : α → α)
    (h : ∀ x ∈ l, f x = x) : l.map f = l := by
  induction l with
  | nil => rfl
  | cons a t ih =>
      simp only [List.map_cons, h a (by simp)]
      rw [ih (fun x hx => h x (by simp [hx]))]

/-! ## Claim C2. -/

/-- Counterexample to C2 as stated: a program with no capability calls
that returns the six-element array literal `lit6` does not get that
literal back — the tool's execute callback hands the agent the
`{count, sample, message}` summary instead, so the returned success
value is not passed through untransformed. -/
theorem c2_counterexample :
    codemodeToolExecute compileRet6 (Except.ok ()) pjNone netDown
      "http://mcp" "sess" "async () => [1,2,3,4,5,6]" =
      Outcome.success (Value.vObj
        [("count", Value.vNum 6), ("sample", Value.vNum 1),
         ("message",
          Value.vStr "6 items returned (showing first as sample)")]) ∧
    Value.vObj
        [("count", Value.vNum 6), ("sample", Value.vNum 1),
         ("message",
          Value.vStr "6 items returned (showing first as sample)")] ≠
      lit6 := by
  refine ⟨rfl, ?_⟩
  intro h
  rw [lit6] at h
  exact Value.noConfusion h

/-- Claim C2 as amended: for a program with no capability calls that
returns a literal, the inner Executor (`executeCode`) passes the value
through untransformed, and the tool-level execute returns
`{success:true, result: summarizeResult(<literal>)}`; the literal is
returned exactly whenever the summarization step leaves it untouched
(it is not an array that is empty or longer than 5, and not an object
with a property holding an array longer than 5). -/
theorem c2_literal_passthrough_amended
    (compile : String → Except String Prog) (provision : Except String Unit)
    (pj : String → Except String Value) (net : FetchRequest → FetchOutcome)
    (url sessionId code : String) (v : Value)
    (hprov : provision = Except.ok ())
    (hcomp : compile code = Except.ok (Prog.ret v)) :
    executeCode compile provision pj net url sessionId code = ExecStep.ok v ∧
    codemodeToolExecute compile provision pj net url sessionId code =
      Outcome.success (summarizeResult v) ∧
    (passesThrough v = true → summarizeResult v = v) := by
  refine ⟨?_, ?_, ?_⟩
  · simp [executeCode, workerFetch, runProg, hprov, hcomp]
  · simp [codemodeToolExecute, executeCode, workerFetch, runProg, hprov, hcomp]
  · intro hpass
    cases v with
    | vArr elems =>
        simp [passesThrough] at hpass
        simp [summarizeResult, hpass.1]
        omega
    | vObj fields =>
        simp [passesThrough] at hpass
        simp [summarizeResult]
        refine list_map_fixed _ _ ?_
        intro kv hkv
        cases hv : kv.2 with
        | vArr elems =>
            have hle := hpass kv.1 kv.2 hkv
            rw [hv] at hle
            simp only [decide_eq_true_eq] at hle
            simp [hv]
            intro h
            omega
        | vNull => simp [hv]
        | vBool b => simp [hv]
        | vNum n => simp [hv]
        | vStr s => simp [hv]
        | vObj fs => simp [hv]
    | vNull => rfl
    | vBool b => rfl
    | vNum n => rfl
    | vStr s => rfl

/-- Witness for C2 (amended): the string literal "hi" is returned
exactly. -/
theorem c2_witness :
    codemodeToolExecute compileRetHi (Except.ok ()) pjNone netDown
      "http://mcp" "sess" "async () => \x22hi\x22" =
      Outcome.success (Value.vStr "hi") := by
  have h := c2_literal_passthrough_amended compileRetHi (Except.ok ()) pjNone
    netDown "http://mcp" "sess" "async () => \x22hi\x22" (Value.vStr "hi")
    rfl rfl
  rw [h.2.1, h.2.2 rfl]

/-! ## Claim C3. -/

/-- Counterexample to C3 as stated: a program that awaits a promise
that never settles never produces any result at all — the execute path
contains no timeout, so the run does not end as a Failed result with a
timeout kind (nor as anything else). -/
theorem c3_counterexample :
    codemodeToolExecute compileHang (Except.ok ()) pjNone netDown
      "http://mcp" "sess" "async () => await new Promise(() => 0)" =
      Outcome.never ∧
    Outcome.never ≠ Outcome.failure "timeout" ∧
    Outcome.never ≠ Outcome.success Value.vNull := by
  refine ⟨rfl, ?_, ?_⟩ <;> intro h <;> exact Outcome.noConfusion h

/-- Claim C3 as amended: `executeCode` imposes no wall-clock budget —
when the compiled program never resolves, the worker fetch never
settles, `executeCode` awaits it forever, and the tool call never
returns; no timeout failure kind exists anywhere on this path and no
teardown is performed by this code. -/
theorem c3_no_timeout_amended
    (compile : String → Except String Prog) (provision : Except String Unit)
    (pj : String → Except String Value) (net : FetchRequest → FetchOutcome)
    (url sessionId code : String) (p : Prog)
    (hprov : provision = Except.ok ())
    (hcomp : compile code = Except.ok p)
    (hrun : runProg pj net url sessionId p = RunOutcome.never) :
    executeCode compile provision pj net url sessionId code =
      ExecStep.never ∧
    codemodeToolExecute compile provision pj net url sessionId code =
      Outcome.never := by
  constructor
  · simp [executeCode, workerFetch, hprov, hcomp, hrun]
  · simp [codemodeToolExecute, executeCode, workerFetch, hprov, hcomp, hrun]

/-- Witness for C3 (amended): the concrete hanging program yields the
never-settling outcome. -/
theorem c3_witness :
    codemodeToolExecute compileHang (Except.ok ()) pjNone netDown
      "http://mcp" "sess" "async () => await new Promise(() => 1)" =
      Outcome.never :=
  (c3_no_timeout_amended compileHang (Except.ok ()) pjNone netDown
    "http://mcp" "sess" "async () => await new Promise(() => 1)" Prog.hang
    rfl rfl rfl).2

/-! ## Claim C4. -/

/-- Counterexample to C4 as stated: the worker uses `args || {}`, not
`args ?? {}` — the argument `false` is neither null nor undefined, yet
the Bridge call is made with the empty object in its place instead of
passing `false` through. -/
theorem c4_counterexample :
    buildToolRequest "http://mcp" "sess" "rsvp" (some (Value.vBool false)) =
      { url := "http://mcp", sessionId := "sess", toolName := "rsvp",
        arguments := Value.vObj [] } ∧
    Value.vObj [] ≠ Value.vBool false := by
  refine ⟨rfl, ?_⟩
  intro h
  exact Value.noConfusion h

/-- Claim C4 as amended: every property access on the codemode proxy
yields a callable (the proxy is a total function of the property name);
invoking it performs exactly one Bridge request, for the accessed name,
against the fixed session id of the worker, with arguments `args || {}`:
the empty object is substituted whenever the supplied argument is falsy
(undefined, null, false, 0, or the empty string) and any truthy argument
is passed through. -/
theorem c4_proxy_one_call_amended
    (pj : String → Except String Value) (net : FetchRequest → FetchOutcome)
    (url sessionId prop : String) (args : Option Value) :
    codemodeProxy pj net url sessionId prop args =
      handleFetch pj (net (buildToolRequest url sessionId prop args)) ∧
    (buildToolRequest url sessionId prop args).sessionId = sessionId ∧
    (buildToolRequest url sessionId prop args).toolName = prop ∧
    argsOrEmpty none = Value.vObj [] ∧
    (∀ v, truthy v = true → argsOrEmpty (some v) = v) ∧
    (∀ v, truthy v = false → argsOrEmpty (some v) = Value.vObj []) := by
  refine ⟨rfl, rfl, rfl, rfl, ?_, ?_⟩ <;> intro v h <;> simp [argsOrEmpty, h]

/-- Witness for C4 (amended): a truthy argument object is passed through
unchanged. -/
theorem c4_witness :
    argsOrEmpty (some (Value.vObj [("title", Value.vStr "Party")])) =
      Value.vObj [("title", Value.vStr "Party")] :=
  (c4_proxy_one_call_amended pjNone netDown "http://mcp" "sess" "create_event"
    (some (Value.vObj [("title", Value.vStr "Party")]))).2.2.2.2.1
    (Value.vObj [("title", Value.vStr "Party")]) rfl

/-! ## Claim C5. -/

/-- Counterexample to C5 as stated: when the backend's application-error
message is the empty string, the tool-level result carries the fallback
text `Code execution failed` (from `result.error || 'Code execution
failed'` in `executeCode`), not the backend's message verbatim. -/
theorem c5_counterexample :
    codemodeToolExecute compileGetEvent (Except.ok ()) pjEmptyErr netEvErr
      "http://mcp" "sess" "prog" = Outcome.failure "Code execution failed" ∧
    Outcome.failure "Code execution failed" ≠ Outcome.failure "" := by
  refine ⟨rfl, ?_⟩
  intro h
  simp at h

/-- Claim C5 as amended: a backend-reported application error is raised
by the Bridge inside the sandboxed program as a catchable error carrying
the backend's message verbatim (a `try/catch` in the program receives
exactly that message), and if the program does not catch it the execute
path returns `{success:false, error: <that message>}` whenever the
message is non-empty; an empty backend message is replaced by the
fallback text `Code execution failed`. -/
theorem c5_backend_error_amended :
    (∀ (pj : String → Except String Value) (msg : String)
        (rest : List (String × Value)),
      handleRpc pj (Value.vObj
          (("error", Value.vObj [("message", Value.vStr msg)]) :: rest)) =
        Except.error msg) ∧
    (∀ (pj : String → Except String Value) (net : FetchRequest → FetchOutcome)
        (url sessionId name : String) (args : Option Value)
        (k : Value → Prog) (h : String → Prog) (m : String),
      callTool pj net url sessionId name args = Except.error m →
      runProg pj net url sessionId (Prog.callTry name args k h) =
        runProg pj net url sessionId (h m)) ∧
    (∀ (compile : String → Except String Prog) (provision : Except String Unit)
        (pj : String → Except String Value) (net : FetchRequest → FetchOutcome)
        (url sessionId code : String) (p : Prog) (msg : String),
      provision = Except.ok () → compile code = Except.ok p →
      runProg pj net url sessionId p = RunOutcome.thrown msg → msg ≠ "" →
      codemodeToolExecute compile provision pj net url sessionId code =
        Outcome.failure msg) := by
  refine ⟨?_, ?_, ?_⟩
  · intro pj msg rest
    simp [handleRpc, lookupField, truthyOpt, truthy, errMessage, List.find?]
  · intro pj net url sessionId name args k h m hcall
    rw [runProg, hcall]
  · intro compile provision pj net url sessionId code p msg hprov hcomp hrun hne
    simp [codemodeToolExecute, executeCode, workerFetch, hprov, hcomp, hrun,
      hne]

/-- Witness for C5 (amended): the uncaught backend message
`Event not found` surfaces verbatim as the tagged failure. -/
theorem c5_witness :
    codemodeToolExecute compileGetEvent (Except.ok ()) pjEvErr netEvErr
      "http://mcp" "sess" "prog" = Outcome.failure "Event not found" :=
  c5_backend_error_amended.2.2 compileGetEvent (Except.ok ()) pjEvErr netEvErr
    "http://mcp" "sess" "prog" progGetEvent "Event not found" rfl rfl rfl
    (by simp)

/-! ## Claim C6. -/

/-- A JSON-RPC success envelope whose content text is the empty string
and whose `result` object carries a marker field. -/
def envEmptyText : Value :=
  Value.vObj [("result", Value.vObj
    [("content", Value.vArr [Value.vObj [("text", Value.vStr "")]]),
     ("marker", Value.vNum 7)])]

/-- A JSON.parse oracle that parses the empty string to `true`. -/
def pjParsesEmpty : String → Except String Value :=
  fun s => if s = "" then Except.ok (Value.vBool true)
           else Except.error "bad json"

/-- Counterexample to C6 as stated: for the successful reply whose
textual payload is the empty string, the Bridge does not attempt to
parse it (the JS truthiness test `if (textContent)` fails) — it returns
the raw `result` object, which is neither the parsed payload (`true`
under this parse oracle) nor the raw-text fallback `""`. -/
theorem c6_counterexample :
    handleRpc pjParsesEmpty envEmptyText =
      Except.ok (Value.vObj
        [("content", Value.vArr [Value.vObj [("text", Value.vStr "")]]),
         ("marker", Value.vNum 7)]) ∧
    Value.vObj
        [("content", Value.vArr [Value.vObj [("text", Value.vStr "")]]),
         ("marker", Value.vNum 7)] ≠ Value.vBool true ∧
    Value.vObj
        [("content", Value.vArr [Value.vObj [("text", Value.vStr "")]]),
         ("marker", Value.vNum 7)] ≠ Value.vStr "" := by
  refine ⟨rfl, ?_, ?_⟩ <;> intro h <;> exact Value.noConfusion h

/-- Claim C6 as amended: on a successful capability call with a
non-empty textual payload the Bridge attempts to parse it as structured
data and falls back to returning the raw text when parsing fails; both
cases are successful outcomes, the fallback distinguished as a string
value; an empty textual payload is treated as absent (JS truthiness)
and the raw structured `result` is returned instead. -/
theorem c6_parse_fallback_amended
    (pj : String → Except String Value) (envelope : Value) (t : String)
    (herr : truthyOpt (lookupField envelope "error") = false)
    (htext : textContentOf envelope = some t) (hne : t ≠ "") :
    (∀ v, pj t = Except.ok v → handleRpc pj envelope = Except.ok v) ∧
    (∀ e, pj t = Except.error e →
      handleRpc pj envelope = Except.ok (Value.vStr t)) ∧
    (∃ v, handleRpc pj envelope = Except.ok v) := by
  refine ⟨?_, ?_, ?_⟩
  · intro v hv
    simp [handleRpc, herr, htext, hne, hv]
  · intro e he
    simp [handleRpc, herr, htext, hne, he]
  · cases hv : pj t with
    | ok v => exact ⟨v, by simp [handleRpc, herr, htext, hne, hv]⟩
    | error e => exact ⟨Value.vStr t, by simp [handleRpc, herr, htext, hne, hv]⟩

/-- A JSON-RPC success envelope whose content text is the payload `L`.
-/
def envListText : Value :=
  Value.vObj [("result", Value.vObj
    [("content", Value.vArr [Value.vObj [("text", Value.vStr "L")]])])]

/-- A JSON.parse oracle that parses `L` to the array `[1, 2]`. -/
def pjL : String → Except String Value :=
  fun s => if s = "L" then Except.ok (Value.vArr [Value.vNum 1, Value.vNum 2])
           else Except.error "bad json"

/-- Witness for C6 (amended): a parseable non-empty payload is delivered
as the parsed structured value. -/
theorem c6_witness :
    handleRpc pjL envListText =
      Except.ok (Value.vArr [Value.vNum 1, Value.vNum 2]) :=
  (c6_parse_fallback_amended pjL envListText "L" rfl rfl (by simp)).1
    (Value.vArr [Value.vNum 1, Value.vNum 2]) rfl

/-! ## Claim C7. -/

/-- Claim C7: surface generation is deterministic and pure — over one
and the same tool-definition catalog, two invocations of
`generateTypeScript` yield byte-identical output, and likewise two
invocations of `generateToolDescriptions`; both are functions of the
catalog alone (no hidden state appears in their signatures). -/
theorem c7_surface_deterministic (cat1 cat2 : Catalog) (h : cat1 = cat2) :
    generateTypeScript cat1 = generateTypeScript cat2 ∧
    generateToolDescriptions cat1 = generateToolDescriptions cat2 := by
  subst h
  exact ⟨rfl, rfl⟩

/-- A small concrete catalog in the shape of the Fluma tool definitions.
-/
def demoCatalog : Catalog :=
  [("create_event",
    { description := "Create a new event",
      shape := [("title", ZodType.zString), ("location", ZodType.zString),
                ("date", ZodType.zString),
                ("description", ZodType.zOptional ZodType.zString)] }),
   ("list_events",
    { description := "List events",
      shape := [("filter",
        ZodType.zEnum ["upcoming", "past", "hosting", "attending", "all"])] })]

/-- Witness for C7: the two generators agree with themselves on the
concrete demo catalog. -/
theorem c7_witness :
    generateTypeScript demoCatalog = generateTypeScript demoCatalog ∧
    generateToolDescriptions demoCatalog = generateToolDescriptions demoCatalog :=
  c7_surface_deterministic demoCatalog demoCatalog rfl

/-! ## Claim C8. -/

/-- Claim C8: type-declaration generation never aborts — a field whose
schema kind is none of the representable ones renders as the opaque
marker `any` (both at the `getZodTypeString` level and inside its
parameter position), and for every catalog `generateTypeScript` still
emits the full declaration covering every tool, with no failure path in
its result type. -/
theorem c8_opaque_degradation :
    (∀ kind, getZodTypeString (ZodType.zOther kind) = "any") ∧
    (∀ k kind, renderParam (k, ZodType.zOther kind) = k ++ ": any") ∧
    (∀ cat : Catalog, generateTypeScript cat =
      "declare const codemode: \x7b\n  " ++
        String.intercalate ";\n  " (cat.map renderTool) ++ ";\n\x7d;") := by
  refine ⟨fun _ => rfl, ?_, fun _ => rfl⟩
  intro k kind
  show k ++ "" ++ ": " ++ "any" = k ++ ": any"
  rw [String.append_empty, String.append_assoc]
  exact rfl

/-! ## Claim C9. -/

/-- Claim C9: on every successful execution the returned value is
post-processed by `summarizeResult` before being handed back to the
agent, and `summarizeResult` behaves exactly as described: a top-level
array of more than 5 elements becomes `{count, sample: first, message}`,
an empty top-level array becomes `{count: 0, items: []}`, a non-array
object has each property holding an array of more than 5 elements
replaced by the same summary shape, and everything else passes through
unchanged (`summarizeSpec` is that description verbatim). -/
theorem c9_summarize_characterization :
    (∀ v, summarizeResult v = summarizeSpec v) ∧
    (∀ (compile : String → Except String Prog) (provision : Except String Unit)
        (pj : String → Except String Value) (net : FetchRequest → FetchOutcome)
        (url sessionId code : String) (v : Value),
      executeCode compile provision pj net url sessionId code =
        ExecStep.ok v →
      codemodeToolExecute compile provision pj net url sessionId code =
        Outcome.success (summarizeResult v)) := by
  constructor
  · intro v
    cases v with
    | vArr elems =>
        by_cases h0 : elems.length = 0
        · simp [summarizeResult, summarizeSpec, h0]
        · by_cases h5 : 5 < elems.length
          · simp [summarizeResult, summarizeSpec, h0, h5]
          · simp [summarizeResult, summarizeSpec, h0, h5]
    | vObj fields => rfl
    | vNull => rfl
    | vBool b => rfl
    | vNum n => rfl
    | vStr s => rfl
  · intro compile provision pj net url sessionId code v hexec
    simp [codemodeToolExecute, hexec]

/-- Witness for C9: the pipeline applied to the concrete program
returning the six-element array hands the agent the summary shape. -/
theorem c9_witness :
    codemodeToolExecute compileRet6 (Except.ok ()) pjNone netDown
      "http://mcp" "sess" "code" = Outcome.success (summarizeResult lit6) :=
  c9_summarize_characterization.2 compileRet6 (Except.ok ()) pjNone netDown
    "http://mcp" "sess" "code" lit6 rfl

/-! ## Claim C10. -/

/-- Claim C10: backend session establishment is idempotent and sticky —
after any successful `getMcpSessionId` call, every later call (whatever
the backend would now answer) returns the same session id with the same
agent state and without contacting the backend; the backend is contacted
only from the blank state (so at most once per agent until cleared);
`getSharedSessionId` is that same function; `clearState` deletes both
caches, after which the next call re-initializes. -/
theorem c10_session_sticky :
    (∀ (init : Option String) (s : AgentState) (sid : String)
        (s' : AgentState) (contacted : Bool),
      getMcpSessionId init s = Except.ok (sid, s', contacted) →
      (∀ init2, getMcpSessionId init2 s' = Except.ok (sid, s', false)) ∧
      (contacted = true → s.mem = none ∧ s.storage = none) ∧
      s'.mem = some sid) ∧
    (∀ init s, getSharedSessionId init s = getMcpSessionId init s) ∧
    (∀ s, clearState s = { mem := none, storage := none }) ∧
    (∀ sid2, getMcpSessionId (some sid2) { mem := none, storage := none } =
      Except.ok (sid2, { mem := some sid2, storage := some sid2 }, true)) := by
  refine ⟨?_, fun _ _ => rfl, fun _ => rfl, fun _ => rfl⟩
  intro init s sid s' contacted h
  obtain ⟨mem, storage⟩ := s
  cases mem with
  | some m =>
      simp [getMcpSessionId] at h
      obtain ⟨h1, h2, h3⟩ := h
      subst h1; subst h3
      rw [← h2]
      exact ⟨fun init2 => rfl, fun hfalse => absurd hfalse (by simp), rfl⟩
  | none =>
      cases storage with
      | some st =>
          simp [getMcpSessionId] at h
          obtain ⟨h1, h2, h3⟩ := h
          subst h1; subst h3
          rw [← h2]
          exact ⟨fun init2 => rfl, fun hfalse => absurd hfalse (by simp), rfl⟩
      | none =>
          cases init with
          | none => simp [getMcpSessionId] at h
          | some sid0 =>
              simp [getMcpSessionId] at h
              obtain ⟨h1, h2, h3⟩ := h
              subst h1; subst h3
              rw [← h2]
              exact ⟨fun init2 => rfl, fun _ => ⟨rfl, rfl⟩, rfl⟩

/-- Witness for C10: a first call from the blank state initializes and
caches `sess-1`; the follow-up call returns the same id from cache, with
the state unchanged and no backend contact, even though the backend
would now answer a different id. -/
theorem c10_witness :
    getMcpSessionId (some "other") { mem := some "sess-1", storage := some "sess-1" } =
      Except.ok ("sess-1", { mem := some "sess-1", storage := some "sess-1" }, false) :=
  (c10_session_sticky.1 (some "sess-1") { mem := none, storage := none }
    "sess-1" { mem := some "sess-1", storage := some "sess-1" } true rfl).1
    (some "other")

end McpDemo
